import Mathlib

/-!
Shallow embedding of `src/dfgiatk/loaders/image_loader.py` (the
loader/labeler pipeline of the geltip-simulation repository) and proofs of
the specified properties of its labelers and of its batch sampler.

Python strings are modelled as `List Char`; `os.path` helpers, `str.index`,
`str.split` and `float(...)` are given executable structural-recursive
models below.  Python exceptions (`ValueError`, `KeyError`, `IndexError`,
`StopIteration`) are modelled with `Option`/`Except`: `none`/`.error`
is an unhandled exception propagating to the caller.  IEEE floats are
modelled by the exact rationals they denote; every numeral appearing in
this development is exactly representable, so no rounding is elided.
-/

namespace ImageLoader

/-- A Python `str`, as its sequence of characters. -/
abbrev PyStr := List Char

/-- Python `s.split(c)` for a one-character separator: splitting on every
occurrence, keeping empty segments (`"a__b".split('_') == ["a","","b"]`,
`"".split('_') == [""]`). -/
def splitOnChar (c : Char) : PyStr → List PyStr
  | [] => [[]]
  | x :: xs =>
    let r := splitOnChar c xs
    if x = c then [] :: r
    else
      match r with
      | [] => [[x]]
      | y :: ys => (x :: y) :: ys

/-- POSIX `os.path.basename` for the slash-separated paths used by the
loader: the component after the last `/` (the whole string when there is
no slash). -/
def basename (s : PyStr) : PyStr :=
  (splitOnChar '/' s).getLastD []

/-- POSIX `os.path.dirname` for such paths: everything before the last `/`
(empty when the path has no directory part). -/
def dirname (s : PyStr) : PyStr :=
  List.intercalate ['/'] ((splitOnChar '/' s).dropLast)

/-- The value of a decimal digit character, `none` on a non-digit (where
Python `float` raises `ValueError`). -/
def digitVal (c : Char) : Option ℕ :=
  if c.isDigit then some (c.toNat - 48) else none

/-- Parse a non-empty all-digit string to a natural number; `none`
otherwise. -/
def parseDigits (cs : PyStr) : Option ℕ :=
  match cs with
  | [] => none
  | _ => cs.foldlM (fun acc c => (digitVal c).map (fun d => acc * 10 + d)) 0

/-- Python `float(...)` restricted to the plain decimal numerals this
pipeline meets: an optional sign, integer digits, an optional fractional
part.  `none` where Python raises `ValueError`.  The result is the exact
rational value of the numeral. -/
def pyFloat (s : PyStr) : Option ℚ :=
  let sb : ℚ × PyStr :=
    match s with
    | '-' :: rest => (-1, rest)
    | '+' :: rest => (1, rest)
    | _ => (1, s)
  match splitOnChar '.' sb.2 with
  | [i] => (parseDigits i).map (fun n => sb.1 * (n : ℚ))
  | [i, f] =>
    if i.isEmpty && f.isEmpty then none
    else do
      let ip ← if i.isEmpty then some 0 else parseDigits i
      let fp ← if f.isEmpty then some 0 else parseDigits f
      some (sb.1 * ((ip : ℚ) + (fp : ℚ) / (10 : ℚ) ^ f.length))
  | _ => none

/-- The source line
`file_name = filename_w_extension[: filename_w_extension.index('.')]`:
the prefix of the basename before its FIRST dot.  `str.index` raises
`ValueError` when no dot occurs, hence `Option`. -/
def fileStem (fwe : PyStr) : Option PyStr :=
  if fwe.contains '.' then some (fwe.takeWhile (fun c => c ≠ '.')) else none

/-! ### ClassificationLabeler -/

/-- `ClassificationLabeler.get_class`: the sample's immediate parent-folder
name, `path.basename(path.dirname(s))`. -/
def get_class (s : PyStr) : PyStr :=
  basename (dirname s)

/-- State of a `ClassificationLabeler`: the class list built in `__init__`
and the `one_hot` flag.  (The optional batch transform is handled by the
sampler, see `Labeler` below; it plays no part in `get_label`.) -/
structure ClassificationLabeler where
  classes : List PyStr
  one_hot : Bool

/-- `ClassificationLabeler.__init__`: `classes` is
`list({self.get_class(s): 1 for s in samples}.keys())` followed by the
in-place `self.classes.sort()`.  Insertion-ordered dict-key
de-duplication followed by sorting yields the same list as `dedup`
followed by a sort (both are the unique sorted enumeration of the set of
parent-folder names), which is how it is written here. -/
def ClassificationLabeler.init (samples : List PyStr) (one_hot : Bool) :
    ClassificationLabeler :=
  { classes := List.insertionSort (· ≤ ·) ((samples.map get_class).dedup)
    one_hot := one_hot }

/-- The label value produced by `ClassificationLabeler.get_label`: either
the plain integer index (`np.array(idx)`) or a one-hot vector. -/
inductive ClsLabel where
  | index (i : ℕ)
  | oneHot (v : List ℕ)
deriving DecidableEq

/-- `ClassificationLabeler.get_label`: `self.classes.index(...)` raises
`ValueError` when the class is absent (`none` here); with `one_hot` set,
the result is `np.zeros(len(classes))` with a `1` written at the found
index. -/
def ClassificationLabeler.get_label (lab : ClassificationLabeler)
    (s : PyStr) : Option ClsLabel :=
  match lab.classes.indexOf? (get_class s) with
  | none => none
  | some idx =>
    if lab.one_hot then
      some (.oneHot ((List.range lab.classes.length).map
        (fun j => if j = idx then 1 else 0)))
    else
      some (.index idx)

/-! ### LocalizationLabeler -/

/-- State of a `LocalizationLabeler`: `locations` is `None` when no
`locations_path` was given, otherwise the YAML mapping loaded from it,
as an association list from `"{folder}/{stem}"` keys to the numeric
vectors stored there (Python `float` applied to a stored number is that
number, so entries are carried directly as rationals). -/
structure LocalizationLabeler where
  locations : Option (List (PyStr × List ℚ))

/-- Python truthiness of `self.locations`: `False` both for `None` and
for an empty loaded mapping. -/
def pyDictTruthy (o : Option (List (PyStr × List ℚ))) : Bool :=
  match o with
  | some l => !l.isEmpty
  | none => false

/-- The comprehension `[float(c) for c in segments]`: evaluated left to
right, the first `ValueError` aborting the whole list. -/
def floatList : List PyStr → Option (List ℚ)
  | [] => some []
  | c :: cs => do
    let x ← pyFloat c
    let xs ← floatList cs
    some (x :: xs)

/-- `LocalizationLabeler.get_label`.  `none` models the unhandled Python
exceptions: `ValueError` from `str.index` or `float`, `KeyError` from the
table lookup. -/
def LocalizationLabeler.get_label (lab : LocalizationLabeler)
    (s : PyStr) : Option (List ℚ) := do
  let filename_w_extension := basename s
  let file_name ← fileStem filename_w_extension
  let folder := basename (dirname s)
  if pyDictTruthy lab.locations then
    (lab.locations.getD []).lookup (folder ++ ['/'] ++ file_name)
  else
    floatList (splitOnChar '_' file_name)

/-! ### DatasetSampler

The sampler is polymorphic in the sample-reference type `α` (paths), the
per-sample input type `β` and the label type `γ`: the loader and labeler
passed to it are arbitrary `Labeler`-shaped objects.  `np.array` stacking
and `torch.from_numpy(...).to(device)` preserve the element sequence, so
stacked batches and output tensors are modelled as the lists of their
elements.  `random.choice` is modelled by an oracle `rng : ℕ → ℕ` giving
the draw made at each comprehension slot. -/

/-- The loader argument of `DatasetSampler` (an object of the Python
`Labeler` hierarchy, e.g. `ImageLoader`): per-sample resolution that may
raise, plus the optional batch transform, which the sampler calls as
`transform(xs, samples=samples)`. -/
structure Loader (α β : Type) where
  get_label : α → Except String β
  transform : Option (List β → List α → List β)

/-- The labeler argument of `DatasetSampler`: per-sample label resolution
that may raise, plus the optional label-batch transform, called as
`transform(ys)`. -/
structure Labeler (α γ : Type) where
  get_label : α → Except String γ
  transform : Option (List γ → List γ)

/-- Python `x or y` for the optional integer arguments of
`DatasetSampler.__init__`: `None` and `0` are falsy and select the
default. -/
def pyOrNat (v : Option ℕ) (dflt : ℕ) : ℕ :=
  match v with
  | none => dflt
  | some 0 => dflt
  | some n => n

/-- State of a `DatasetSampler`.  `it` is the step counter (assigned by
`__iter__`; carried as a field since the object is mutable state). -/
structure DatasetSampler (α β γ : Type) where
  samples : List α
  loader : Loader α β
  labeler : Labeler α γ
  epoch_size : ℕ
  batch_size : ℕ
  random_sampling : Bool
  return_names : Bool
  rng : ℕ → ℕ
  it : ℕ

/-- `DatasetSampler.__init__`: `self.batch_size = batch_size or
len(samples)` and `self.epoch_size = epoch_size or len(samples)`.
The Python defaults correspond to `some 1` / `some 32`. -/
def DatasetSampler.init (samples : List α) (loader : Loader α β)
    (labeler : Labeler α γ) (epoch_size batch_size : Option ℕ)
    (random_sampling return_names : Bool) (rng : ℕ → ℕ) :
    DatasetSampler α β γ :=
  { samples := samples
    loader := loader
    labeler := labeler
    batch_size := pyOrNat batch_size samples.length
    epoch_size := pyOrNat epoch_size samples.length
    random_sampling := random_sampling
    return_names := return_names
    rng := rng
    it := 0 }

/-- `DatasetSampler.get_sample`: pick the path (randomly via the oracle,
or `self.samples[i]`, whose out-of-range access raises `IndexError` —
`random.choice` likewise raises on an empty collection), then resolve the
input through the loader and the label through the labeler.  Any raise
propagates. -/
def DatasetSampler.get_sample (st : DatasetSampler α β γ) (i : ℕ) :
    Except String (β × γ × α) := do
  let sample_path ←
    if st.random_sampling then
      match st.samples.get? (st.rng i % st.samples.length) with
      | some p => Except.ok p
      | none => Except.error "IndexError"
    else
      match st.samples.get? i with
      | some p => Except.ok p
      | none => Except.error "IndexError"
  let x ← st.loader.get_label sample_path
  let y ← st.labeler.get_label sample_path
  Except.ok (x, y, sample_path)

/-- The comprehension `[self.get_sample(i) for i in indices]`: evaluated
left to right, the first raise aborting the whole list. -/
def collectSamples (f : ℕ → Except String δ) : List ℕ → Except String (List δ)
  | [] => Except.ok []
  | i :: is => do
    let x ← f i
    let xs ← collectSamples f is
    Except.ok (x :: xs)

/-- `DatasetSampler.sample_batch`: gather
`range(self.it, self.it + self.batch_size)` samples, unzip into the
stacked input / label / path sequences (the unpacking of `list(zip(*...))`
raises `ValueError` on an empty comprehension), apply the loader's batch
transform (with the batch's sample paths) and the labeler's transform when
present, and produce the output triple; `return_names` only selects
whether the caller sees the third component. -/
def DatasetSampler.sample_batch (st : DatasetSampler α β γ) :
    Except String (List β × List γ × List α) := do
  let triples ← collectSamples st.get_sample
    (List.range' st.it st.batch_size)
  if triples.isEmpty then
    Except.error "ValueError"
  else
    let xs0 := triples.map (fun t => t.1)
    let ys0 := triples.map (fun t => t.2.1)
    let samples := triples.map (fun t => t.2.2)
    let xs :=
      match st.loader.transform with
      | some f => f xs0 samples
      | none => xs0
    let ys :=
      match st.labeler.transform with
      | some g => g ys0
      | none => ys0
    Except.ok (xs, ys, samples)

/-- Outcome of one `__next__` call. -/
inductive StepResult (α β γ : Type) where
  | stopIteration
  | raised (msg : String)
  | batch (x : List β) (y : List γ) (names : List α)
deriving DecidableEq

/-- `DatasetSampler.__next__`: raise `StopIteration` once `it` reaches
`epoch_size`; otherwise produce `sample_batch()` and only then increment
`it` — a raise inside `sample_batch` propagates with `it` untouched.  The
returned sampler is the object's state after the call. -/
def DatasetSampler.next (st : DatasetSampler α β γ) :
    StepResult α β γ × DatasetSampler α β γ :=
  if st.epoch_size ≤ st.it then
    (.stopIteration, st)
  else
    match st.sample_batch with
    | .error e => (.raised e, st)
    | .ok (x, y, names) => (.batch x y names, { st with it := st.it + 1 })

/-- `DatasetSampler.__iter__`: reset the step counter. -/
def DatasetSampler.iter (st : DatasetSampler α β γ) : DatasetSampler α β γ :=
  { st with it := 0 }

/-- Drive `__next__` under a fuel bound, collecting the produced batches
of one iteration pass (a `for` loop over the sampler); stops at the first
non-batch outcome. -/
def DatasetSampler.run (st : DatasetSampler α β γ) :
    ℕ → List (List β × List γ × List α)
  | 0 => []
  | fuel + 1 =>
    match st.next with
    | (.batch x y names, st2) => (x, y, names) :: st2.run fuel
    | _ => []

/-- A sequential (non-random) sampler over `samples` whose loader and
labeler are total functions `f` and `g` (per-sample resolution always
succeeds), with batch size `B`, epoch length `E` and step counter `k`. -/
def seqState (samples : List α) (f : α → β) (g : α → γ) (B E : ℕ)
    (rn : Bool) (rng : ℕ → ℕ) (k : ℕ) : DatasetSampler α β γ :=
  { samples := samples
    loader := ⟨fun a => Except.ok (f a), none⟩
    labeler := ⟨fun a => Except.ok (g a), none⟩
    epoch_size := E
    batch_size := B
    random_sampling := false
    return_names := rn
    rng := rng
    it := k }

/-- Concrete sampler whose labeler raises on every sample (witness
state). -/
def stFailW : DatasetSampler ℕ ℕ ℕ :=
  { samples := [10]
    loader := ⟨fun a => Except.ok a, none⟩
    labeler := ⟨fun _ => Except.error "boom", none⟩
    epoch_size := 1
    batch_size := 1
    random_sampling := false
    return_names := false
    rng := fun i => i
    it := 0 }

/-- Concrete sampler carrying a loader batch transform and a labeler
batch transform (witness state). -/
def stTransW : DatasetSampler ℕ ℕ ℕ :=
  { samples := [10, 20]
    loader := ⟨fun a => Except.ok a, some (fun xs _ => xs ++ xs)⟩
    labeler := ⟨fun a => Except.ok (a + 100), some (fun ys => 0 :: ys)⟩
    epoch_size := 1
    batch_size := 2
    random_sampling := false
    return_names := false
    rng := fun i => i
    it := 0 }

/-! ## Helper lemmas -/

/-- Reduction of a successful `Except` bind. -/
theorem ok_bind {η θ : Type _} (a : η) (h : η → Except String θ) :
    Except.ok a >>= h = h a := rfl

/-- Reduction of a failed `Except` bind. -/
theorem error_bind {η θ : Type _} (e : String) (h : η → Except String θ) :
    (Except.error e : Except String η) >>= h = Except.error e := rfl

/-- A member of a list is found by `indexOf?`, at an index within the
list. -/
theorem indexOf?_some_of_mem {l : List PyStr} {a : PyStr} (h : a ∈ l) :
    ∃ i, l.indexOf? a = some i ∧ i < l.length := by
  induction l with
  | nil => cases h
  | cons x xs ih =>
    rw [List.indexOf?_cons]
    by_cases hx : (x == a)
    · exact ⟨0, by simp [hx], by simp⟩
    · have hmem : a ∈ xs := by
        rcases List.mem_cons.mp h with h1 | h1
        · exact absurd (by simp [h1]) hx
        · exact h1
      obtain ⟨i, hi, hlt⟩ := ih hmem
      exact ⟨i + 1, by simp [hx, hi], by simpa using Nat.succ_lt_succ hlt⟩

/-- A non-member is not found by `indexOf?`. -/
theorem indexOf?_none_of_not_mem {l : List PyStr} {a : PyStr} (h : a ∉ l) :
    l.indexOf? a = none := by
  rw [List.indexOf?_eq_none_iff]
  intro x hx
  simp only [beq_iff_eq]
  intro hxa
  exact h (hxa ▸ hx)

/-! ## Theorems for the specified properties -/

/-- C3: for every classification labeler built from a sample collection,
its class list is the sorted, duplicate-free set of the samples' immediate
parent-folder names; the list is computed once in the constructor and the
object never mutates it (the model's `ClassificationLabeler.get_label`
reads the constructed state and is a pure function of it), so label
resolution on the same sample reference twice yields the same index. -/
theorem classification_classes_sorted_dedup (samples : List PyStr)
    (oh : Bool) :
    (ClassificationLabeler.init samples oh).classes.Sorted (· ≤ ·) ∧
    (ClassificationLabeler.init samples oh).classes.Nodup ∧
    (∀ c, c ∈ (ClassificationLabeler.init samples oh).classes ↔
      ∃ s ∈ samples, get_class s = c) ∧
    ∀ s, (ClassificationLabeler.init samples oh).get_label s =
      (ClassificationLabeler.init samples oh).get_label s := by
  refine ⟨List.sorted_insertionSort _ _, ?_, ?_, fun s => rfl⟩
  · exact ((List.perm_insertionSort _ _).nodup_iff).mpr (List.nodup_dedup _)
  · intro c
    simp only [ClassificationLabeler.init]
    rw [(List.perm_insertionSort _ _).mem_iff, List.mem_dedup, List.mem_map]

/-- C4: with one-hot output configured and the sample's folder in the
class set, `get_label` yields a vector as long as the class list, holding
a single `1` at the position the plain (non-one-hot) labeler reports as
the integer class index, and `0` everywhere else. -/
theorem one_hot_matches_plain_index (samples : List PyStr) (s : PyStr)
    (h : get_class s ∈ (ClassificationLabeler.init samples true).classes) :
    ∃ idx v,
      (ClassificationLabeler.init samples false).get_label s =
        some (ClsLabel.index idx) ∧
      (ClassificationLabeler.init samples true).get_label s =
        some (ClsLabel.oneHot v) ∧
      v.length = (ClassificationLabeler.init samples true).classes.length ∧
      idx < v.length ∧ v[idx]? = some 1 ∧
      ∀ j, j < v.length → j ≠ idx → v[j]? = some 0 := by
  obtain ⟨i, hi, hlt⟩ := indexOf?_some_of_mem h
  simp only [ClassificationLabeler.init] at hi hlt
  refine ⟨i,
    (List.range (ClassificationLabeler.init samples true).classes.length).map
      (fun j => if j = i then 1 else 0), ?_, ?_, ?_, ?_, ?_, ?_⟩
  · simp [ClassificationLabeler.get_label, ClassificationLabeler.init, hi]
  · simp [ClassificationLabeler.get_label, ClassificationLabeler.init, hi]
  · simp
  · simpa [ClassificationLabeler.init] using hlt
  · have hlt2 : i < (List.map get_class samples).dedup.length := by
      simpa using hlt
    simp [ClassificationLabeler.init, List.getElem?_map, List.getElem?_range,
      hlt2]
  · intro j hj hne
    have hj2 : j < (List.map get_class samples).dedup.length := by
      simpa [ClassificationLabeler.init] using hj
    simp [ClassificationLabeler.init, List.getElem?_map]
    exact ⟨j, by simp [List.getElem?_range, hj2], hne⟩

/-- C5: a sample whose immediate parent-folder name is not in the
labeler's precomputed class list makes `get_label` raise (the
`ValueError` of `list.index`, modelled by `none`) instead of returning a
label. -/
theorem unknown_class_raises (samples : List PyStr) (oh : Bool) (s : PyStr)
    (h : get_class s ∉ (ClassificationLabeler.init samples oh).classes) :
    (ClassificationLabeler.init samples oh).get_label s = none := by
  simp [ClassificationLabeler.get_label, indexOf?_none_of_not_mem h]

/-- C4 witness: two classes `a < b`; the sample in folder `b` gets plain
index `1` and one-hot vector `[0, 1]`. -/
theorem one_hot_matches_plain_index_witness :
    ∃ idx v,
      (ClassificationLabeler.init
        ["r/b/x.png".data, "r/a/y.png".data] false).get_label
        "r/b/x.png".data = some (ClsLabel.index idx) ∧
      (ClassificationLabeler.init
        ["r/b/x.png".data, "r/a/y.png".data] true).get_label
        "r/b/x.png".data = some (ClsLabel.oneHot v) ∧
      v.length = (ClassificationLabeler.init
        ["r/b/x.png".data, "r/a/y.png".data] true).classes.length ∧
      idx < v.length ∧ v[idx]? = some 1 ∧
      ∀ j, j < v.length → j ≠ idx → v[j]? = some 0 :=
  one_hot_matches_plain_index ["r/b/x.png".data, "r/a/y.png".data]
    "r/b/x.png".data (by decide)

/-- C5 witness: a labeler built over folder `a` raises on a sample from
folder `b`. -/
theorem unknown_class_raises_witness :
    (ClassificationLabeler.init ["r/a/x.png".data] false).get_label
      "r/b/y.png".data = none :=
  unknown_class_raises ["r/a/x.png".data] false "r/b/y.png".data (by decide)

/-- C2 evaluation: with no lookup table, `get_label` on a sample named
`"1.0_2.5_-3.25.ext"` returns `[1.0]`, not `[1.0, 2.5, -3.25]`: the stem
is cut at the FIRST dot (`str.index`), so only `"1"` survives to the
underscore split.  This contradicts the specified float round-trip. -/
theorem localization_parse_truncates_at_first_dot :
    LocalizationLabeler.get_label ⟨none⟩ ("d/1.0_2.5_-3.25.ext".data) =
      some [(1 : ℚ)] ∧
    LocalizationLabeler.get_label ⟨none⟩ ("d/1.0_2.5_-3.25.ext".data) ≠
      some [(1 : ℚ), 5 / 2, -13 / 4] := by
  have heval : LocalizationLabeler.get_label ⟨none⟩
      ("d/1.0_2.5_-3.25.ext".data) = some [(1 : ℚ)] := by
    simp [LocalizationLabeler.get_label, fileStem, basename, dirname,
      splitOnChar, pyDictTruthy, floatList, pyFloat, parseDigits, digitVal]
  refine ⟨heval, ?_⟩
  rw [heval]
  simp

/-- C8: when a (non-empty) lookup table holds an entry for the key
`"{folder}/{stem}"` computed from the sample path, `get_label` returns
exactly the stored numeric vector; the filename's own encoding is never
parsed. -/
theorem table_entry_wins (tbl : List (PyStr × List ℚ)) (s nm : PyStr)
    (v : List ℚ) (htbl : tbl ≠ [])
    (hnm : fileStem (basename s) = some nm)
    (hlk : tbl.lookup (basename (dirname s) ++ ['/'] ++ nm) = some v) :
    LocalizationLabeler.get_label ⟨some tbl⟩ s = some v := by
  simp [LocalizationLabeler.get_label, hnm, pyDictTruthy,
    List.isEmpty_iff, htbl]
  simpa using hlk

/-- C8 witness: table entry `"obj/p1" ↦ [1, 2]` is returned for the
sample `"root/obj/p1.png"`. -/
theorem table_entry_wins_witness :
    LocalizationLabeler.get_label ⟨some [("obj/p1".data, [(1 : ℚ), 2])]⟩
      "root/obj/p1.png".data = some [(1 : ℚ), 2] :=
  table_entry_wins [("obj/p1".data, [(1 : ℚ), 2])] "root/obj/p1.png".data
    "p1".data [(1 : ℚ), 2] (by decide) (by decide) (by decide)

/-- C10: a labeler whose loaded table is the empty mapping behaves
exactly like one constructed without a table: `if self.locations:` tests
truthiness, an empty dict is falsy, and the filename-parsing fallback
runs. -/
theorem empty_table_falls_back (s : PyStr) :
    LocalizationLabeler.get_label ⟨some []⟩ s =
      LocalizationLabeler.get_label ⟨none⟩ s := rfl

/-- Sequential `get_sample` with total loader and labeler: position `i`
resolves to the triple built from `samples[i]`. -/
theorem seq_get_sample (samples : List α) (f : α → β) (g : α → γ)
    (B E : ℕ) (rn : Bool) (rng : ℕ → ℕ) (k i : ℕ)
    (hi : i < samples.length) :
    (seqState samples f g B E rn rng k).get_sample i =
      Except.ok (f samples[i], g samples[i], samples[i]) := by
  simp [seqState, DatasetSampler.get_sample, List.getElem?_eq_getElem hi,
    ok_bind]

/-- Sequential comprehension over `range(k, k + B2)`: with all positions
in bounds it succeeds and yields the triples of the window
`(samples.drop k).take B2`. -/
theorem seq_collect (samples : List α) (f : α → β) (g : α → γ)
    (B E : ℕ) (rn : Bool) (rng : ℕ → ℕ) (k0 : ℕ) :
    ∀ B2 k, k + B2 ≤ samples.length →
      collectSamples (seqState samples f g B E rn rng k0).get_sample
        (List.range' k B2) =
      Except.ok (((samples.drop k).take B2).map (fun p => (f p, g p, p))) := by
  intro B2
  induction B2 with
  | zero => intro k hk; simp [collectSamples]
  | succ B2 ih =>
    intro k hk
    have hklt : k < samples.length := by omega
    have hwin : (samples.drop k).take (B2 + 1) =
        samples[k] :: ((samples.drop (k + 1)).take B2) := by
      rw [List.drop_eq_getElem_cons hklt, List.take_succ_cons]
    rw [List.range'_succ, hwin]
    simp only [collectSamples,
      seq_get_sample samples f g B E rn rng k0 k hklt,
      ih (k + 1) (by omega), ok_bind, List.map_cons]

/-- Sequential `sample_batch` at step counter `k` with a positive batch
size and all positions in bounds: the stacked input, label and path
sequences come from the window `(samples.drop k).take B`. -/
theorem seq_sample_batch (samples : List α) (f : α → β) (g : α → γ)
    (B E : ℕ) (rn : Bool) (rng : ℕ → ℕ) (k : ℕ) (hB : 0 < B)
    (hk : k + B ≤ samples.length) :
    (seqState samples f g B E rn rng k).sample_batch =
      Except.ok (((samples.drop k).take B).map f,
                 ((samples.drop k).take B).map g,
                 (samples.drop k).take B) := by
  have hlen : ((samples.drop k).take B).length = B := by
    simp [List.length_take, List.length_drop]
    omega
  have hne : (samples.drop k).take B ≠ [] := by
    intro hcon
    rw [hcon] at hlen
    simp at hlen
    omega
  have hcol := seq_collect samples f g B E rn rng k B k hk
  unfold DatasetSampler.sample_batch
  have hit : (seqState samples f g B E rn rng k).it = k := rfl
  have hbs : (seqState samples f g B E rn rng k).batch_size = B := rfl
  rw [hit, hbs, hcol, ok_bind]
  rw [if_neg (by simp [List.isEmpty_iff]; omega)]
  simp only [seqState, List.map_map]
  have h3 : List.map ((fun t : β × γ × α => t.2.2) ∘ fun p => (f p, g p, p))
      ((samples.drop k).take B) = (samples.drop k).take B := by
    simp [Function.comp_def]
  rw [h3]
  rfl

/-- Sequential `__next__` below the epoch bound: produce the window batch
and advance the step counter by one. -/
theorem seq_next (samples : List α) (f : α → β) (g : α → γ)
    (B E : ℕ) (rn : Bool) (rng : ℕ → ℕ) (k : ℕ) (hB : 0 < B)
    (hk : k + B ≤ samples.length) (hkE : k < E) :
    (seqState samples f g B E rn rng k).next =
      (StepResult.batch (((samples.drop k).take B).map f)
        (((samples.drop k).take B).map g)
        ((samples.drop k).take B),
       seqState samples f g B E rn rng (k + 1)) := by
  have hsb := seq_sample_batch samples f g B E rn rng k hB hk
  have hcond : ¬ ((seqState samples f g B E rn rng k).epoch_size ≤
      (seqState samples f g B E rn rng k).it) := by
    simpa [seqState] using Nat.not_le.mpr hkE
  unfold DatasetSampler.next
  rw [if_neg hcond, hsb]
  simp [seqState]

/-- Driving the sequential sampler from step counter `k`: it produces one
window batch per remaining step, `E - k` in all, batch `i` being the
window at position `k + i`. -/
theorem seq_run (samples : List α) (f : α → β) (g : α → γ)
    (B E : ℕ) (rn : Bool) (rng : ℕ → ℕ) (hB : 0 < B)
    (hlen : ∀ i ∈ List.range E, i + B ≤ samples.length) :
    ∀ fuel k, E - k < fuel →
      ((seqState samples f g B E rn rng k).run fuel).length = E - k ∧
      ∀ i, k + i < E →
        ((seqState samples f g B E rn rng k).run fuel)[i]? =
          some (((samples.drop (k + i)).take B).map f,
                ((samples.drop (k + i)).take B).map g,
                (samples.drop (k + i)).take B) := by
  intro fuel
  induction fuel with
  | zero => intro k hk; omega
  | succ fuel ih =>
    intro k hk
    by_cases hkE : k < E
    · have hkB : k + B ≤ samples.length := hlen k (List.mem_range.mpr hkE)
      rw [DatasetSampler.run,
        seq_next samples f g B E rn rng k hB hkB hkE]
      obtain ⟨ihlen, ihget⟩ := ih (k + 1) (by omega)
      constructor
      · simp only [List.length_cons, ihlen]
        omega
      · intro i hi
        cases i with
        | zero => simp
        | succ i =>
          have hstep := ihget i (by omega)
          simp only [List.getElem?_cons_succ]
          have harith : k + 1 + i = k + (i + 1) := by omega
          rw [← harith]
          exact hstep
    · have hstop : (seqState samples f g B E rn rng k).next =
          (StepResult.stopIteration, seqState samples f g B E rn rng k) := by
        simp [DatasetSampler.next, seqState, Nat.not_lt.mp hkE]
      rw [DatasetSampler.run, hstop]
      refine ⟨by simp; omega, ?_⟩
      intro i hi
      omega

/-- C1 (amended): in sequential mode with batch size `B > 0`, epoch
length `E` and every accessed position in bounds, each iteration pass
issues exactly `E` batches before `StopIteration`, and batch `i` holds
the samples at positions `[i, i + B)` of the ordered collection — a
sliding window advancing by one per step, because `sample_batch` indexes
with `range(self.it, self.it + self.batch_size)` and `self.it` counts
steps, not sample offsets.  (The disjoint `[i*B, i*B + B)` blocks the
spec claims are refuted separately on a concrete input.) -/
theorem sequential_epoch_sliding_batches (samples : List α) (f : α → β)
    (g : α → γ) (B E : ℕ) (rn : Bool) (rng : ℕ → ℕ) (it0 fuel : ℕ)
    (hB : 0 < B) (hlen : ∀ i ∈ List.range E, i + B ≤ samples.length)
    (hfuel : E < fuel) :
    (((seqState samples f g B E rn rng it0).iter).run fuel).length = E ∧
    ∀ i, i < E →
      (((seqState samples f g B E rn rng it0).iter).run fuel)[i]? =
        some (((samples.drop i).take B).map f,
              ((samples.drop i).take B).map g,
              (samples.drop i).take B) := by
  have hiter : (seqState samples f g B E rn rng it0).iter =
      seqState samples f g B E rn rng 0 := rfl
  rw [hiter]
  obtain ⟨h1, h2⟩ := seq_run samples f g B E rn rng hB hlen fuel 0
    (by omega)
  refine ⟨by simpa using h1, fun i hi => ?_⟩
  simpa using h2 i (by simpa using hi)

/-- C1 witness: four samples, `B = 2`, `E = 2`: two batches, windows at
positions 0 and 1. -/
theorem sequential_epoch_sliding_batches_witness :
    (((seqState [10, 20, 30, 40] (fun a => a) (fun a => a + 100) 2 2 false
      (fun i => i) 5).iter).run 3).length = 2 ∧
    ∀ i, i < 2 →
      (((seqState [10, 20, 30, 40] (fun a => a) (fun a => a + 100) 2 2 false
        (fun i => i) 5).iter).run 3)[i]? =
        some ((([10, 20, 30, 40].drop i).take 2).map (fun a => a),
              (([10, 20, 30, 40].drop i).take 2).map (fun a => a + 100),
              ([10, 20, 30, 40].drop i).take 2) :=
  sequential_epoch_sliding_batches [10, 20, 30, 40] (fun a => a)
    (fun a => a + 100) 2 2 false (fun i => i) 5 3 (by decide) (by decide)
    (by decide)

/-- C1 counterexample: four samples, `B = 2`, `E = 2`, all positions of
the claim in bounds; the second issued batch holds the samples at
positions 1 and 2 (`[20, 30]`), not the claimed block `[2*1, 2*1+2) =
[30, 40]`. -/
theorem sequential_batches_overlap :
    (((seqState [10, 20, 30, 40] (fun a : ℕ => a) (fun a => a) 2 2 false
      (fun i => i) 0).iter).run 3)[1]? =
      some ([20, 30], [20, 30], [20, 30]) ∧
    (((seqState [10, 20, 30, 40] (fun a : ℕ => a) (fun a => a) 2 2 false
      (fun i => i) 0).iter).run 3)[1]? ≠
      some ([30, 40], [30, 40], [30, 40]) := by
  decide

/-- A comprehension one of whose slots raises makes the whole
comprehension raise. -/
theorem collectSamples_error_of_mem {f : ℕ → Except String δ} :
    ∀ {is : List ℕ}, (∃ i ∈ is, ∃ e, f i = Except.error e) →
      ∃ e2, collectSamples f is = Except.error e2 := by
  intro is h
  induction is with
  | nil => simp at h
  | cons j js ih =>
    obtain ⟨i, hmem, e, he⟩ := h
    rcases List.mem_cons.mp hmem with rfl | htail
    · exact ⟨e, by simp [collectSamples, he, error_bind]⟩
    · cases hj : f j with
      | error e2 => exact ⟨e2, by simp [collectSamples, hj, error_bind]⟩
      | ok x =>
        obtain ⟨e2, he2⟩ := ih ⟨i, htail, e, he⟩
        exact ⟨e2, by simp [collectSamples, hj, he2, ok_bind, error_bind]⟩

/-- C6: if any selected sample of the step fails to resolve, the whole
step fails: `sample_batch` raises (no batch, no partial batch, no
skipped sample), `__next__` propagates the raise, and the sampler's
state — the step counter included — is exactly what it was before the
step. -/
theorem sample_failure_aborts_step (st : DatasetSampler α β γ)
    (hit : st.it < st.epoch_size)
    (h : ∃ i ∈ List.range' st.it st.batch_size,
      ∃ e, st.get_sample i = Except.error e) :
    ∃ e2, st.sample_batch = Except.error e2 ∧
      st.next = (StepResult.raised e2, st) := by
  obtain ⟨e2, hc⟩ := collectSamples_error_of_mem h
  have hsb : st.sample_batch = Except.error e2 := by
    simp [DatasetSampler.sample_batch, hc, error_bind]
  exact ⟨e2, hsb, by simp [DatasetSampler.next, hsb, Nat.not_le.mpr hit]⟩

/-- C6 witness: a labeler that raises on the only sample aborts the step
and leaves the sampler untouched. -/
theorem sample_failure_aborts_step_witness :
    ∃ e2, stFailW.sample_batch = Except.error e2 ∧
      stFailW.next = (StepResult.raised e2, stFailW) :=
  sample_failure_aborts_step stFailW (by decide) ⟨0, by decide, "boom", rfl⟩

/-- C7: when the loader carries a batch transform `F` and the labeler a
transform `G`, a successful step hands `F` the full stacked input batch
together with the batch's sample paths and hands `G` the full stacked
label batch, and the output tensors are built from their return values,
not from the untransformed stacks. -/
theorem batch_transforms_apply_to_stacked (st : DatasetSampler α β γ)
    (F : List β → List α → List β) (G : List γ → List γ)
    (triples : List (β × γ × α))
    (hF : st.loader.transform = some F) (hG : st.labeler.transform = some G)
    (hok : collectSamples st.get_sample
      (List.range' st.it st.batch_size) = Except.ok triples)
    (hne : triples ≠ []) :
    st.sample_batch = Except.ok
      (F (triples.map (fun t => t.1)) (triples.map (fun t => t.2.2)),
       G (triples.map (fun t => t.2.1)),
       triples.map (fun t => t.2.2)) := by
  simp [DatasetSampler.sample_batch, hok, hF, hG, ok_bind,
    List.isEmpty_iff, hne]

/-- C7 witness: a duplicating input transform and a prepending label
transform are both visible, applied once, in the step's output. -/
theorem batch_transforms_apply_to_stacked_witness :
    stTransW.sample_batch = Except.ok
      ([10, 20, 10, 20], [0, 110, 120], [10, 20]) := by
  have := batch_transforms_apply_to_stacked stTransW
    (fun xs _ => xs ++ xs) (fun ys => 0 :: ys)
    [(10, 110, 10), (20, 120, 20)] rfl rfl rfl (by decide)
  simpa using this

/-- C9: a falsy `batch_size` argument (`None` or `0`) makes the
effective batch size the sample count, and likewise a falsy `epoch_size`
argument makes the effective epoch length the sample count. -/
theorem falsy_sizes_default_to_sample_count (samples : List α)
    (loader : Loader α β) (labeler : Labeler α γ) (rs rn : Bool)
    (rng : ℕ → ℕ) (b e : Option ℕ) :
    ((b = none ∨ b = some 0) →
      (DatasetSampler.init samples loader labeler e b rs rn rng).batch_size =
        samples.length) ∧
    ((e = none ∨ e = some 0) →
      (DatasetSampler.init samples loader labeler e b rs rn rng).epoch_size =
        samples.length) := by
  constructor
  · rintro (rfl | rfl) <;> simp [DatasetSampler.init, pyOrNat]
  · rintro (rfl | rfl) <;> simp [DatasetSampler.init, pyOrNat]

/-- C9 witness: over three samples, `batch_size = 0` (with a truthy
epoch size) gives batch size 3, and `epoch_size = None` (with a truthy
batch size) gives epoch length 3. -/
theorem falsy_sizes_default_to_sample_count_witness :
    (DatasetSampler.init [5, 6, 7] (⟨fun a => Except.ok a, none⟩ : Loader ℕ ℕ)
      (⟨fun a => Except.ok a, none⟩ : Labeler ℕ ℕ) (some 5) (some 0) true
      false (fun i => i)).batch_size = 3 ∧
    (DatasetSampler.init [5, 6, 7] (⟨fun a => Except.ok a, none⟩ : Loader ℕ ℕ)
      (⟨fun a => Except.ok a, none⟩ : Labeler ℕ ℕ) none (some 7) true false
      (fun i => i)).epoch_size = 3 := by
  have h1 := (falsy_sizes_default_to_sample_count [5, 6, 7]
    (⟨fun a => Except.ok a, none⟩ : Loader ℕ ℕ)
    (⟨fun a => Except.ok a, none⟩ : Labeler ℕ ℕ) true false (fun i => i)
    (some 0) (some 5)).1 (Or.inr rfl)
  have h2 := (falsy_sizes_default_to_sample_count [5, 6, 7]
    (⟨fun a => Except.ok a, none⟩ : Loader ℕ ℕ)
    (⟨fun a => Except.ok a, none⟩ : Labeler ℕ ℕ) true false (fun i => i)
    (some 7) none).2 (Or.inl rfl)
  exact ⟨by simpa using h1, by simpa using h2⟩

end ImageLoader
